import Mathlib

/-!
Verification of the cell-engine export pipeline.

Shallow embedding of the Python sources of the repository:

* `client_ext.py` — `get_statistics`: request construction and the
  quantile precondition guard;
* `s3.py` — `S3FilesLoader`: the pending-future queue
  (`result_all_futures`, `add_to_upload_future`, `upload_dir`,
  `download_dir`), key construction, and the guarded `move_dir` /
  `delete_dir` operations;
* `main.py` — the export orchestrator (`_download_file`,
  `_download_global_gating_ml`, `_download_fcs_gating_ml`,
  `_download_statistics`, `_upload_to_s3`, `_download_experiment_files`).

Python strings that participate in substring surgery are modelled as
`List Char` (`PyStr`); elsewhere plain `String` is used.  Effects
(network calls, uploads, local file writes and removals) are modelled
as explicit event traces threaded through a `World` state.
-/

namespace CellEngine

/-! ## Python string primitives (on `List Char`) -/

/-- Python `str` as a sequence of code points. -/
abbrev PyStr := List Char

/-- Python `str.removeprefix(p)`: drop `p` when it is a leading
substring, otherwise return the string unchanged. -/
def pyRemovePfx (s p : PyStr) : PyStr :=
  if p <+: s then s.drop p.length else s

/-- Python `str.removesuffix(p)` on `String`s (used for `.fcs` names). -/
def pyRemoveSuffix (s suf : String) : String :=
  if suf.data <:+ s.data then String.mk (s.data.take (s.data.length - suf.data.length))
  else s

/-- Python `str.replace(pat, repl)` — replaces EVERY occurrence of
`pat`, scanning left to right; with `pat = ""` Python inserts `repl`
between every character and at both ends, which the second branch
reproduces. -/
def pyReplace (s pat repl : PyStr) : PyStr :=
  if h : pat ≠ [] ∧ pat <+: s then
    repl ++ pyReplace (s.drop pat.length) pat repl
  else
    match s with
    | [] => if pat = [] then repl else []
    | c :: cs => (if pat = [] then repl ++ [c] else [c]) ++ pyReplace cs pat repl
termination_by s.length
decreasing_by
  · have hlen : pat.length ≤ s.length := h.2.length_le
    have hp : 0 < pat.length := List.length_pos.mpr h.1
    simp only [List.length_drop]
    omega
  · simp

/-- Python `str.replace(pat, repl, 1)` — replaces only the FIRST
occurrence of `pat` (with `pat = ""`, Python prepends `repl`). -/
def pyReplace1 (s pat repl : PyStr) : PyStr :=
  if pat = [] then repl ++ s
  else if pat <+: s then repl ++ s.drop pat.length
  else
    match s with
    | [] => []
    | c :: cs => c :: pyReplace1 cs pat repl

/-- Python `os.path.basename` for forward-slash keys: everything after
the last `/`. -/
def pyBasename (s : PyStr) : PyStr :=
  (s.reverse.takeWhile (fun c => c ≠ '/')).reverse

/-- Key-prefix test used by S3 `list_objects_v2(Prefix=p)`: the object
key starts with the prefix. -/
def keyHasPfx (key pfx : String) : Bool :=
  pfx.data.isPrefixOf key.data

/-! ## `client_ext.get_statistics` — values and request payload

Python runtime values that flow into the request parameters. -/

inductive Val where
  | none : Val
  | vbool : Bool → Val
  | vint : Int → Val
  | vfloat : ℚ → Val
  | vstr : String → Val
  | vstrlist : List String → Val
deriving DecidableEq

/-- Python `==` between the runtime values above: values of unrelated
types compare unequal (in particular a `str` never equals a `list`);
`int` and `float` compare numerically. -/
def pyEq : Val → Val → Bool
  | .none, .none => true
  | .vbool a, .vbool b => a == b
  | .vint a, .vint b => a == b
  | .vfloat a, .vfloat b => a == b
  | .vint a, .vfloat b => (a : ℚ) == b
  | .vfloat a, .vint b => a == (b : ℚ)
  | .vstr a, .vstr b => a == b
  | .vstrlist a, .vstrlist b => a == b
  | _, _ => false

/-- Python `isinstance(v, float)` (`None`, `bool` and `int` are not
`float` instances). -/
def isinstanceFloat : Val → Bool
  | .vfloat _ => true
  | _ => false

/-- Python `v is not None`, negated. -/
def Val.isNone : Val → Bool
  | .none => true
  | _ => false

/-- Arguments of `get_statistics`, with the default values of the source
(`UNCOMPENSATED` is the SDK constant `0`). -/
structure StatsArgs where
  experiment_id : String
  statistics : List String
  channels : List String
  q : Val := Val.none
  annotations : Bool := false
  compensation_id : Val := Val.vint 0
  fcs_file_ids : Val := Val.none
  format : String := "json"
  layout : Val := Val.none
  percent_of : Val := Val.vstr "PARENT"
  population_ids : Val := Val.none
  other_params : List (String × Val) := []

/-- The `params` dict literal of `get_statistics`, in source order. -/
def computed_params (a : StatsArgs) : List (String × Val) :=
  [("statistics", Val.vstrlist a.statistics),
   ("q", a.q),
   ("channels", Val.vstrlist a.channels),
   ("annotations", Val.vbool a.annotations),
   ("compensationId", a.compensation_id),
   ("fcsFileIds", a.fcs_file_ids),
   ("format", Val.vstr (if a.format == "pandas" then "json" else a.format)),
   ("layout", a.layout),
   ("percentOf", a.percent_of),
   ("populationIds", a.population_ids)]

/-- Python `d[k] = v` on an insertion-ordered dict modelled as an
association list: update in place when the key is present, append
otherwise. -/
def setKey (d : List (String × Val)) (k : String) (v : Val) : List (String × Val) :=
  if d.any (fun p => p.1 == k) then
    d.map (fun p => if p.1 == k then (k, v) else p)
  else d ++ [(k, v)]

/-- Python `params.update(other_params)`. -/
def dictUpdate (d other : List (String × Val)) : List (String × Val) :=
  other.foldl (fun acc p => setKey acc p.1 p.2) d

/-- The `req_params` dict comprehension: merge `other_params` in, then
keep only entries whose value `is not None`. -/
def req_params (a : StatsArgs) : List (String × Val) :=
  (dictUpdate (computed_params a) a.other_params).filter (fun p => !p.2.isNone)

/-- Python exceptions raised by `get_statistics` before the response
switch. -/
inductive PyErr where
  | valueError : String → PyErr
deriving DecidableEq

/-- Observable outcome of one `get_statistics` invocation: how many
network calls were issued, and either the payload that was POSTed to
the bulk-statistics endpoint or the exception raised beforehand. -/
structure StatsOutcome where
  networkCalls : Nat
  result : Except PyErr (List (String × Val))

/-- Model of `client_ext.get_statistics` up to the network call: the quantile
guard is the source line
`if "quantile" == statistics and not isinstance(q, float)` — a `str`
compared with `==` against the `statistics` list — followed by payload
construction and exactly one POST. -/
def get_statistics (a : StatsArgs) : StatsOutcome :=
  if pyEq (Val.vstr "quantile") (Val.vstrlist a.statistics)
      && !(isinstanceFloat a.q) then
    ⟨0, Except.error (PyErr.valueError "'q' must be a number for 'quantile' statistic.")⟩
  else
    ⟨1, Except.ok (req_params a)⟩

/-! ## `s3.py` — the pending-future queue -/

deriving instance DecidableEq for Except

/-- A pending transfer handle: an id (its enqueue position) and the
outcome its `.result()` call will produce. -/
structure Future where
  fid : Nat
  outcome : Except String Unit
deriving DecidableEq

/-- Observable result of `result_all_futures`: the queue left behind,
the ids whose `.result()` was called in call order, and either the
returned count or the exception that propagated. -/
structure DrainResult where
  queue : List Future
  resolved : List Nat
  result : Except String Nat
deriving DecidableEq

/-- The `while len(queue) > 0: future = queue.pop(); future.result()`
loop: `list.pop()` removes the LAST element, i.e. the head of the
reversed queue, on which this helper recurses; a raising `.result()`
propagates immediately, leaving the un-popped entries behind. -/
def drainRev (revQueue : List Future) (resolved : List Nat) (n : Nat) :
    List Future × List Nat × Except String Nat :=
  match revQueue with
  | [] => ([], resolved, Except.ok n)
  | f :: rest =>
    match f.outcome with
    | Except.error e => (rest, resolved ++ [f.fid], Except.error e)
    | Except.ok _ => drainRev rest (resolved ++ [f.fid]) (n + 1)

/-- Model of `S3FilesLoader.result_all_futures`: drain by popping from the end,
restoring the left-behind entries to queue order. -/
def result_all_futures (queue : List Future) : DrainResult :=
  let r := drainRev queue.reverse [] 0
  ⟨r.1.reverse, r.2.1, r.2.2⟩

/-- A local file seen by `os.walk` in `upload_dir`: its posix path and
the outcome of the transfer the SDK will run for it. -/
structure LocalXfer where
  path : PyStr
  outcome : Except String Unit

/-- Gateway state relevant to the queue claims: the future queue, the
id the next enqueued future receives, and the `dry_run` flag. -/
structure Gateway where
  queue : List Future
  nextId : Nat
  dry_run : Bool

/-- Model of `add_to_upload_future`: appends a future to the queue unless
`dry_run` is set (in which case it only logs). -/
def add_to_upload_future (gw : Gateway) (outcome : Except String Unit) : Gateway :=
  if !gw.dry_run then
    { gw with queue := gw.queue ++ [⟨gw.nextId, outcome⟩], nextId := gw.nextId + 1 }
  else gw

/-- Model of `add_to_download_future`: always appends (the source has no
`dry_run` guard on downloads). -/
def add_to_download_future (gw : Gateway) (outcome : Except String Unit) : Gateway :=
  { gw with queue := gw.queue ++ [⟨gw.nextId, outcome⟩], nextId := gw.nextId + 1 }

/-- Destination key built by `upload_dir` for one walked file:
`to_f_key = to_dir_key + loca_path.removeprefix(from_dir)`. -/
def upload_dest_key (from_dir to_dir_key loca_path : PyStr) : PyStr :=
  to_dir_key ++ pyRemovePfx loca_path from_dir

/-- Destination filename built by `download_dir` for one listed object:
`to_filename = str(obj.key).replace(from_dir_key, to_dir)` — note this
is `str.replace`, substituting EVERY occurrence. -/
def download_dest (from_dir_key to_dir key : PyStr) : PyStr :=
  pyReplace key from_dir_key to_dir

/-- Model of `upload_dir`: walk the local tree (given here as the walked file
list), enqueue one upload per file with its substituted key, then drain
the queue. Returns the final gateway state, the keys that were enqueued,
and the drain outcome. -/
def upload_dir (gw : Gateway) (files : List LocalXfer) (from_dir to_dir_key : PyStr) :
    Gateway × List PyStr × DrainResult :=
  let gw' := files.foldl (fun g f => add_to_upload_future g f.outcome) gw
  let keys := files.map (fun f => upload_dest_key from_dir to_dir_key f.path)
  let d := result_all_futures gw'.queue
  ({ gw' with queue := d.queue }, keys, d)

/-- Model of `download_dir`: list the object keys under the source prefix,
enqueue one download per object with its substituted local filename,
then drain. `to_dir = None` defaults to `os.path.basename(from_dir_key)`.
`outcomeOf` gives the eventual transfer-engine result per key. -/
def download_dir (gw : Gateway) (store : List PyStr) (from_dir_key : PyStr)
    (to_dir : Option PyStr) (outcomeOf : PyStr → Except String Unit) :
    Gateway × List PyStr × DrainResult :=
  let toDir := match to_dir with
    | Option.none => pyBasename from_dir_key
    | Option.some d => d
  let objs := store.filter (fun k => from_dir_key.isPrefixOf k)
  let gw' := objs.foldl (fun g k => add_to_download_future g (outcomeOf k)) gw
  let dests := objs.map (fun k => download_dest from_dir_key toDir k)
  let d := result_all_futures gw'.queue
  ({ gw' with queue := d.queue }, dests, d)

/-! ## `s3.py` — guarded directory move / delete over a key store -/

/-- Keys present in the bucket (a set, kept as a duplicate-free list). -/
def insertKey (store : List String) (k : String) : List String :=
  if k ∈ store then store else store ++ [k]

/-- Model of `bucket.objects.filter(Prefix=pfx)`: the keys under a prefix, in
listing order. -/
def listPfxObjs (store : List String) (pfx : String) : List String :=
  store.filter (fun k => keyHasPfx k pfx)

/-- Model of `move_file` (single-bucket case): no-op guard when source and
destination paths coincide; under `dry_run` only logs; otherwise
server-side copy — whose reported success is the oracle `copyOk` —
followed by delete of the source only on success, and an exception
otherwise. -/
def move_file (dry_run : Bool) (copyOk : String → String → Bool)
    (store : List String) (from_f_key to_f_key : String) :
    Except String (List String) :=
  if from_f_key == to_f_key then Except.ok store
  else if !dry_run then
    if copyOk from_f_key to_f_key then
      Except.ok ((insertKey store to_f_key).filter (fun k => k ≠ from_f_key))
    else Except.error ("Unable to move file " ++ from_f_key ++ ".")
  else Except.ok store

/-- The per-object loop of `move_dir`, threading the store;
a raising `move_file` aborts the loop with the store as mutated so far. -/
def move_dir_loop (dry_run : Bool) (copyOk : String → String → Bool)
    (from_dir_key to_dir_key : String) :
    List String → List String → Except (String × List String) (List String)
  | [], store => Except.ok store
  | k :: rest, store =>
    let new_key := String.mk (pyReplace1 k.data from_dir_key.data to_dir_key.data)
    match move_file dry_run copyOk store k new_key with
    | Except.error e => Except.error (e, store)
    | Except.ok store' => move_dir_loop dry_run copyOk from_dir_key to_dir_key rest store'

/-- Error message of the `move_dir` safety cap. -/
def moveCapMsg (num_objs max_obj_count : Nat) : String :=
  "num_objs > max_obj_count: " ++ toString num_objs ++ " > " ++ toString max_obj_count
    ++ ". Too much objects to move. You can increase max_obj_count"

/-- Model of `move_dir`: list all objects under the source prefix; raise before
touching any object when the count exceeds the cap (default 100);
otherwise move each object to its first-occurrence-substituted key.
An error carries the store at the moment of the raise. -/
def move_dir (dry_run : Bool) (copyOk : String → String → Bool)
    (store : List String) (from_dir_key to_dir_key : String)
    (max_obj_count : Nat := 100) : Except (String × List String) (List String) :=
  let objs := listPfxObjs store from_dir_key
  if objs.length > max_obj_count then
    Except.error (moveCapMsg objs.length max_obj_count, store)
  else move_dir_loop dry_run copyOk from_dir_key to_dir_key objs store

/-- Model of `delete_file`: removes the key unless `dry_run` is set. -/
def delete_file (dry_run : Bool) (store : List String) (f_key : String) : List String :=
  if !dry_run then store.filter (fun k => k ≠ f_key) else store

/-- Error message of the `delete_dir` root guard. -/
def deleteRootMsg : String :=
  "Deleting by root key='/' is prohibited. Use explicit keys to directories"

/-- Error message of the `delete_dir` safety cap. -/
def deleteCapMsg (num_objs max_obj_count : Nat) : String :=
  "num_objs > max_obj_count: " ++ toString num_objs ++ " > " ++ toString max_obj_count
    ++ ". Too much objects to delete. You can increase max_obj_count"
    ++ ". !!! Be carefully - you can delete objects without recovery"

/-- Model of `delete_dir`: refuses outright when the key is the store root `"/"`
(checked before even listing); otherwise lists the objects under the
prefix, raises when the count exceeds the cap (default 30), and deletes
each object otherwise. -/
def delete_dir (dry_run : Bool) (store : List String) (dir_key : String)
    (max_obj_count : Nat := 30) : Except (String × List String) (List String) :=
  if dir_key == "/" then Except.error (deleteRootMsg, store)
  else
    let objs := listPfxObjs store dir_key
    if objs.length > max_obj_count then
      Except.error (deleteCapMsg objs.length max_obj_count, store)
    else Except.ok (objs.foldl (fun st k => delete_file dry_run st k) store)

/-! ## `main.py` — the export orchestrator -/

/-- A population node of the gating tree of an experiment. -/
structure Population where
  pid : String
deriving DecidableEq

/-- A raw-data file reference of an experiment. -/
structure FcsFile where
  fid : String
  name : String
deriving DecidableEq

/-- An experiment record, as resolved from the remote API. -/
structure Experiment where
  eid : String
  name : String
  populations : List Population
  fcs_files : List FcsFile
deriving DecidableEq

/-- Effects the orchestrator performs, in order. -/
inductive Ev where
  | fcsDownload : String → String → Ev        -- client.download_fcs_file(exp_id, file_id)
  | gatingMLGet : String → Option String → Ev -- GET .gatingml, optional fcsFileId
  | statsRequest : String → String → Ev       -- bulk-statistics POST for (exp_id, file_id)
  | s3Upload : String → Ev                    -- upload_file to the given key
  | localWrite : String → Ev                  -- open(path, "w"/"wb") + write
  | localRemove : String → Ev                 -- os.remove(path)
deriving DecidableEq

/-- State threaded through the run: object-store keys and local files. -/
structure World where
  s3 : List String
  localFiles : List String
deriving DecidableEq

/-- Model of `_check_s3_exists`: `check_exists` lists at most one object with
`Prefix=f"CellEngine/{f_path}"`, so it is true iff some stored key
starts with that prefix. -/
def check_s3_exists (w : World) (f_path : String) : Bool :=
  w.s3.any (fun k => keyHasPfx k ("CellEngine/" ++ f_path))

/-- Model of `_upload_to_s3`: no-op on `None`; otherwise uploads to
`CellEngine/{f_path}` and, when `remove_local` is set, removes the
local copy. -/
def upload_to_s3 (w : World) (f_path : Option String) (remove_local : Bool) :
    World × List Ev :=
  match f_path with
  | Option.none => (w, [])
  | Option.some p =>
    let key := "CellEngine/" ++ p
    let w1 : World := { w with s3 := insertKey w.s3 key }
    if remove_local then
      ({ w1 with localFiles := w1.localFiles.filter (fun q => q ≠ p) },
       [Ev.s3Upload key, Ev.localRemove p])
    else (w1, [Ev.s3Upload key])

/-- Local path of a raw file: `f"{exp_root}/{fcs_file.name}"`. -/
def rawPath (exp_root : String) (fcs : FcsFile) : String :=
  exp_root ++ "/" ++ fcs.name

/-- Local path of a per-file gating definition:
`f"{exp_root}/{fcs_name}.gatingml"` with the `.fcs` suffix stripped. -/
def gatingPath (exp_root : String) (fcs : FcsFile) : String :=
  exp_root ++ "/" ++ pyRemoveSuffix fcs.name ".fcs" ++ ".gatingml"

/-- Local path of a per-file statistics TSV:
`f"{exp_root}/{fcs_name}_statistics.tsv"`. -/
def statsPath (exp_root : String) (fcs : FcsFile) : String :=
  exp_root ++ "/" ++ pyRemoveSuffix fcs.name ".fcs" ++ "_statistics.tsv"

/-- Local path of the global gating definition:
`f"{exp_root}/{exp.name}_global.gatingml"`. -/
def globalGatingPath (exp_root : String) (exp : Experiment) : String :=
  exp_root ++ "/" ++ exp.name ++ "_global.gatingml"

/-- Model of `_download_file`: skip (returning `None`) when the mirrored
destination exists; otherwise download the raw file and write it
locally. -/
def download_file (exp : Experiment) (exp_root : String) (fcs : FcsFile) (w : World) :
    World × List Ev × Option String :=
  let fcs_file_path := rawPath exp_root fcs
  if check_s3_exists w fcs_file_path then (w, [], Option.none)
  else
    ({ w with localFiles := insertKey w.localFiles fcs_file_path },
     [Ev.fcsDownload exp.eid fcs.fid, Ev.localWrite fcs_file_path],
     Option.some fcs_file_path)

/-- Model of `_download_global_gating_ml`: unconditionally GETs the experiment-wide
global gating definition and writes it locally (no existence check). -/
def download_global_gating_ml (exp : Experiment) (exp_root : String) (w : World) :
    World × List Ev × String :=
  let gatingml_file_path := globalGatingPath exp_root exp
  ({ w with localFiles := insertKey w.localFiles gatingml_file_path },
   [Ev.gatingMLGet exp.eid Option.none, Ev.localWrite gatingml_file_path],
   gatingml_file_path)

/-- Model of `_download_fcs_gating_ml`: skip when the mirrored destination
exists; otherwise GET the per-file gating definition and write it. -/
def download_fcs_gating_ml (exp : Experiment) (exp_root : String) (fcs : FcsFile)
    (w : World) : World × List Ev × Option String :=
  let gatingml_file_path := gatingPath exp_root fcs
  if check_s3_exists w gatingml_file_path then (w, [], Option.none)
  else
    ({ w with localFiles := insertKey w.localFiles gatingml_file_path },
     [Ev.gatingMLGet exp.eid (Option.some fcs.fid), Ev.localWrite gatingml_file_path],
     Option.some gatingml_file_path)

/-- The `get_statistics` arguments issued by `_download_statistics`. -/
def statsCallArgs (exp : Experiment) (fcs : FcsFile) : StatsArgs :=
  { experiment_id := exp.eid
    statistics := ["eventcount"]
    channels := []
    fcs_file_ids := Val.vstrlist [fcs.fid]
    format := "TSV (with header)"
    layout := Val.vstr "medium"
    population_ids := Val.vstrlist ("" :: exp.populations.map Population.pid)
    other_params := [("ids", Val.vbool true), ("uniqueNames", Val.vbool true),
                     ("fullPaths", Val.vbool true)] }

/-- Model of `_download_statistics`: skip (returning `None`) when the mirrored
destination exists; otherwise issue one bulk-statistics request (the
quantile guard cannot fire for the list `["eventcount"]`) and write the
TSV locally. -/
def download_statistics (exp : Experiment) (exp_root : String) (fcs : FcsFile)
    (w : World) : World × List Ev × Option String :=
  let statistics_file_path := statsPath exp_root fcs
  if check_s3_exists w statistics_file_path then (w, [], Option.none)
  else
    ({ w with localFiles := insertKey w.localFiles statistics_file_path },
     [Ev.statsRequest exp.eid fcs.fid, Ev.localWrite statistics_file_path],
     Option.some statistics_file_path)

/-- Raw-file step of the per-file loop body: `_download_file` followed
by `_upload_to_s3(..., remove_local=True)`. -/
def stepRaw (exp : Experiment) (exp_root : String) (fcs : FcsFile) (w : World) :
    World × List Ev :=
  let r := download_file exp exp_root fcs w
  let u := upload_to_s3 r.1 r.2.2 true
  (u.1, r.2.1 ++ u.2)

/-- Per-file gating step: `_download_fcs_gating_ml` then
`_upload_to_s3(..., remove_local=True)`. -/
def stepGating (exp : Experiment) (exp_root : String) (fcs : FcsFile) (w : World) :
    World × List Ev :=
  let r := download_fcs_gating_ml exp exp_root fcs w
  let u := upload_to_s3 r.1 r.2.2 true
  (u.1, r.2.1 ++ u.2)

/-- Statistics step: `_download_statistics` then
`_upload_to_s3(..., remove_local=True)`. -/
def stepStats (exp : Experiment) (exp_root : String) (fcs : FcsFile) (w : World) :
    World × List Ev :=
  let r := download_statistics exp exp_root fcs w
  let u := upload_to_s3 r.1 r.2.2 true
  (u.1, r.2.1 ++ u.2)

/-- One iteration of the per-file loop in `_download_experiment_files`. -/
def processFcs (exp : Experiment) (exp_root : String) (w : World) (fcs : FcsFile) :
    World × List Ev :=
  let a := stepRaw exp exp_root fcs w
  let b := stepGating exp exp_root fcs a.1
  let c := stepStats exp exp_root fcs b.1
  (c.1, a.2 ++ b.2 ++ c.2)

/-- The per-file loop over `exp.fcs_files`. -/
def loopFcs (exp : Experiment) (exp_root : String) (w : World) :
    List FcsFile → World × List Ev
  | [] => (w, [])
  | fcs :: rest =>
    let a := processFcs exp exp_root w fcs
    let b := loopFcs exp exp_root a.1 rest
    (b.1, a.2 ++ b.2)

/-- Global-gating step of `_download_experiment_files`:
`_download_global_gating_ml` then `_upload_to_s3` with the default
`remove_local=False`. -/
def stepGlobal (exp : Experiment) (exp_root : String) (w : World) : World × List Ev :=
  let g := download_global_gating_ml exp exp_root w
  let u := upload_to_s3 g.1 (Option.some g.2.2) false
  (u.1, g.2.1 ++ u.2)

/-- Model of `_download_experiment_files`: download and mirror the global gating
definition (uploaded WITHOUT `remove_local`), then run the per-file
loop. -/
def download_experiment_files (exp : Experiment) (w : World) : World × List Ev :=
  let exp_root := "data/" ++ exp.name
  let g := stepGlobal exp exp_root w
  let l := loopFcs exp exp_root g.1 exp.fcs_files
  (l.1, g.2 ++ l.2)

/-- Event classifiers used to state the claims. -/
def Ev.isFcsDownload : Ev → Bool
  | Ev.fcsDownload _ _ => true
  | _ => false

def Ev.isFcsGatingGet : Ev → Bool
  | Ev.gatingMLGet _ (Option.some _) => true
  | _ => false

def Ev.isStatsRequest : Ev → Bool
  | Ev.statsRequest _ _ => true
  | _ => false

def Ev.isUpload : Ev → Bool
  | Ev.s3Upload _ => true
  | _ => false


/-! ## Queue lemmas and claims about `result_all_futures` -/


lemma drainRev_all_ok (l : List Future) (res : List Nat) (n : Nat)
    (h : ∀ f ∈ l, f.outcome = Except.ok ()) :
    drainRev l res n = ([], res ++ l.map Future.fid, Except.ok (n + l.length)) := by
  induction l generalizing res n with
  | nil => simp [drainRev]
  | cons f rest ih =>
    have hf := h f (List.mem_cons_self f rest)
    rw [drainRev, hf]
    rw [ih _ _ (fun g hg => h g (List.mem_cons_of_mem f hg))]
    simp
    omega

lemma drainRev_first_error (l : List Future) (f : Future) (rest : List Future)
    (res : List Nat) (n : Nat) (e : String)
    (hl : ∀ g ∈ l, g.outcome = Except.ok ()) (hf : f.outcome = Except.error e) :
    drainRev (l ++ f :: rest) res n =
      (rest, res ++ l.map Future.fid ++ [f.fid], Except.error e) := by
  induction l generalizing res n with
  | nil => simp [drainRev, hf]
  | cons g gs ih =>
    have hg := hl g (List.mem_cons_self g gs)
    rw [List.cons_append, drainRev, hg]
    rw [ih _ _ (fun x hx => hl x (List.mem_cons_of_mem g hx))]
    simp

lemma drainRev_ok_empty (l : List Future) (res : List Nat) (n m : Nat)
    (h : (drainRev l res n).2.2 = Except.ok m) : (drainRev l res n).1 = [] := by
  induction l generalizing res n with
  | nil => simp [drainRev]
  | cons f rest ih =>
    rw [drainRev] at h ⊢
    cases hf : f.outcome with
    | error e => rw [hf] at h; simp at h
    | ok u => rw [hf] at h; exact ih _ _ h


lemma result_all_futures_ok_empty (q : List Future) (n : Nat)
    (h : (result_all_futures q).result = Except.ok n) :
    (result_all_futures q).queue = [] := by
  simp only [result_all_futures] at h ⊢
  rw [drainRev_ok_empty q.reverse [] 0 n h]
  rfl

/-- Claim C10: `result_all_futures` resolves pending transfers in
reverse-of-enqueue (LIFO) order — `list.pop()` removes the last
element — and, when all transfers succeed, returns the count of
resolved transfers, equal to the number queued, leaving the queue
empty. -/
theorem C10_drain_lifo_count (queue : List Future)
    (h : ∀ f ∈ queue, f.outcome = Except.ok ()) :
    result_all_futures queue =
      ⟨[], (queue.map Future.fid).reverse, Except.ok queue.length⟩ := by
  unfold result_all_futures
  rw [drainRev_all_ok _ _ _ (fun f hf => h f (List.mem_reverse.mp hf))]
  simp

/-- Witness for C10 at a concrete two-element queue: resolution order
is `[2, 1]` and the returned count is 2. -/
theorem C10_witness :
    (∀ f ∈ [(⟨1, Except.ok ()⟩ : Future), ⟨2, Except.ok ()⟩], f.outcome = Except.ok ()) ∧
    result_all_futures [(⟨1, Except.ok ()⟩ : Future), ⟨2, Except.ok ()⟩] =
      ⟨[], [2, 1], Except.ok 2⟩ :=
  ⟨by decide, C10_drain_lifo_count _ (by decide)⟩

/-- Counterexample to claim C3: with queue `[ok, err]` the failure of
the last-enqueued transfer propagates after blocking on only that one
handle; the other queued handle is never resolved and remains in the
queue — the drain does NOT block on all transfers before propagating. -/
theorem C3_counterexample :
    (result_all_futures [(⟨1, Except.ok ()⟩ : Future), ⟨2, Except.error "boom"⟩]).result
        = Except.error "boom" ∧
    (result_all_futures [(⟨1, Except.ok ()⟩ : Future), ⟨2, Except.error "boom"⟩]).resolved
        = [2] ∧
    (result_all_futures [(⟨1, Except.ok ()⟩ : Future), ⟨2, Except.error "boom"⟩]).queue
        = [⟨1, Except.ok ()⟩] := by
  decide

/-- Claim C3 (amended): `result_all_futures` blocks on queued
transfers in LIFO order and propagates the first encountered failure
immediately when the handle of that transfer is resolved; transfers
enqueued earlier (still un-popped) are not blocked on and stay in the
queue. -/
theorem C3_amended (qs : List Future) (f : Future) (gs : List Future) (e : String)
    (hgs : ∀ g ∈ gs, g.outcome = Except.ok ()) (hf : f.outcome = Except.error e) :
    result_all_futures (qs ++ f :: gs) =
      ⟨qs, (gs.map Future.fid).reverse ++ [f.fid], Except.error e⟩ := by
  unfold result_all_futures
  rw [show (qs ++ f :: gs).reverse = gs.reverse ++ f :: qs.reverse by simp]
  rw [drainRev_first_error _ _ _ _ _ _ (fun g hg => hgs g (List.mem_reverse.mp hg)) hf]
  simp

/-- Witness for the amended C3, instantiating the queue decomposition
at `[ok] ++ [err] ++ []`. -/
theorem C3_amended_witness :
    (∀ g ∈ ([] : List Future), g.outcome = Except.ok ()) ∧
    (⟨2, Except.error "boom"⟩ : Future).outcome = Except.error "boom" ∧
    result_all_futures [(⟨1, Except.ok ()⟩ : Future), ⟨2, Except.error "boom"⟩] =
      ⟨[⟨1, Except.ok ()⟩], [2], Except.error "boom"⟩ :=
  ⟨by decide, by decide,
   C3_amended [⟨1, Except.ok ()⟩] ⟨2, Except.error "boom"⟩ [] "boom" (by decide) (by decide)⟩

/-- Claim C4: whenever `upload_dir` or `download_dir` returns control
to its caller (the drain returns a count rather than raising), the
pending-transfer queue is empty; both operations end every normal
return path in `result_all_futures`, whose loop terminates only on an
empty queue. -/
theorem C4_queue_drained :
    (∀ (gw : Gateway) (files : List LocalXfer) (from_dir to_dir_key : PyStr) (n : Nat),
      (upload_dir gw files from_dir to_dir_key).2.2.result = Except.ok n →
      (upload_dir gw files from_dir to_dir_key).1.queue = []) ∧
    (∀ (gw : Gateway) (store : List PyStr) (from_dir_key : PyStr) (to_dir : Option PyStr)
      (outcomeOf : PyStr → Except String Unit) (n : Nat),
      (download_dir gw store from_dir_key to_dir outcomeOf).2.2.result = Except.ok n →
      (download_dir gw store from_dir_key to_dir outcomeOf).1.queue = []) := by
  constructor
  · intro gw files from_dir to_dir_key n h
    simp only [upload_dir] at h ⊢
    exact result_all_futures_ok_empty _ _ h
  · intro gw store from_dir_key to_dir outcomeOf n h
    simp only [download_dir] at h ⊢
    exact result_all_futures_ok_empty _ _ h

/-- Witness for C4 at a one-file upload and a one-object download. -/
theorem C4_witness :
    (upload_dir ⟨[], 0, false⟩ [⟨['a'], Except.ok ()⟩] [] []).2.2.result = Except.ok 1 ∧
    (upload_dir ⟨[], 0, false⟩ [⟨['a'], Except.ok ()⟩] [] []).1.queue = [] ∧
    (download_dir ⟨[], 0, false⟩ [['k']] [] Option.none (fun _ => Except.ok ())).2.2.result
        = Except.ok 1 ∧
    (download_dir ⟨[], 0, false⟩ [['k']] [] Option.none (fun _ => Except.ok ())).1.queue = [] :=
  ⟨by decide, C4_queue_drained.1 _ _ _ _ 1 (by decide), by decide,
   C4_queue_drained.2 _ _ _ _ _ 1 (by decide)⟩


/-! ## Claim C7 — safety caps of `move_dir` / `delete_dir` -/

/-- Claim C7: `move_dir` raises before touching any object when the
listed count under the source prefix exceeds the cap (default 100),
leaving the store unchanged; `delete_dir` applies the same fail-closed
cap pattern (default 30) and refuses unconditionally — for every cap
value, before even listing — when the target key is the store root
`"/"`. -/
theorem C7_safety_caps :
    (∀ (dry : Bool) (copyOk : String → String → Bool) (store : List String)
        (fk tk : String) (cap : Nat),
      (listPfxObjs store fk).length > cap →
      move_dir dry copyOk store fk tk cap =
        Except.error (moveCapMsg (listPfxObjs store fk).length cap, store)) ∧
    (∀ (dry : Bool) (copyOk : String → String → Bool) (store : List String) (fk tk : String),
      (listPfxObjs store fk).length > 100 →
      move_dir dry copyOk store fk tk =
        Except.error (moveCapMsg (listPfxObjs store fk).length 100, store)) ∧
    (∀ (dry : Bool) (store : List String) (dk : String) (cap : Nat), dk ≠ "/" →
      (listPfxObjs store dk).length > cap →
      delete_dir dry store dk cap =
        Except.error (deleteCapMsg (listPfxObjs store dk).length cap, store)) ∧
    (∀ (dry : Bool) (store : List String) (cap : Nat),
      delete_dir dry store "/" cap = Except.error (deleteRootMsg, store)) := by
  refine ⟨?_, ?_, ?_, ?_⟩
  · intro dry copyOk store fk tk cap h
    simp only [move_dir]
    rw [if_pos h]
  · intro dry copyOk store fk tk h
    simp only [move_dir]
    rw [if_pos h]
  · intro dry store dk cap h1 h2
    have hb : ¬((dk == "/") = true) := by simp [h1]
    simp only [delete_dir]
    rw [if_neg hb, if_pos h2]
  · intro dry store cap
    simp [delete_dir]

/-- Witness for C7: cap overflow on two objects with cap 1, the
default cap 100 exceeded by 101 replicated keys, and the root-key
refusal. -/
theorem C7_witness :
    ((listPfxObjs ["p/a", "p/b"] "p/").length > 1 ∧
      move_dir false (fun _ _ => true) ["p/a", "p/b"] "p/" "q/" 1 =
        Except.error (moveCapMsg 2 1, ["p/a", "p/b"])) ∧
    ((listPfxObjs (List.replicate 101 "p/x") "p/").length > 100 ∧
      move_dir false (fun _ _ => true) (List.replicate 101 "p/x") "p/" "q/" =
        Except.error (moveCapMsg 101 100, List.replicate 101 "p/x")) ∧
    (("p/" : String) ≠ "/" ∧ (listPfxObjs ["p/a", "p/b"] "p/").length > 1 ∧
      delete_dir false ["p/a", "p/b"] "p/" 1 =
        Except.error (deleteCapMsg 2 1, ["p/a", "p/b"])) ∧
    delete_dir true ["p/a"] "/" 30 = Except.error (deleteRootMsg, ["p/a"]) :=
  ⟨⟨by decide, C7_safety_caps.1 false (fun _ _ => true) ["p/a", "p/b"] "p/" "q/" 1 (by decide)⟩,
   ⟨by decide, C7_safety_caps.2.1 false (fun _ _ => true) (List.replicate 101 "p/x") "p/" "q/"
      (by decide)⟩,
   ⟨by decide, by decide, C7_safety_caps.2.2.1 false ["p/a", "p/b"] "p/" 1 (by decide) (by decide)⟩,
   C7_safety_caps.2.2.2 true ["p/a"] 30⟩


/-! ## Claim C8 — destination key construction in directory transfers -/

/-- Modelled from the spec: destination construction by "string-prefix
substitution preserving the relative remainder" — replace the source
prefix at the START of the key and keep the rest. -/
def specPrefixSubstitution (pfx repl s : PyStr) : PyStr :=
  repl ++ s.drop pfx.length

lemma pyReplace_of_not_occ (s pat repl : PyStr) (hne : pat ≠ [])
    (h : ¬ pat <:+: s) : pyReplace s pat repl = s := by
  induction s with
  | nil =>
    rw [pyReplace]
    have hnp : ¬(pat ≠ [] ∧ pat <+: ([] : PyStr)) := by
      rintro ⟨h1, h2⟩
      exact h1 (List.prefix_nil.mp h2)
    rw [dif_neg hnp]
    simp [hne]
  | cons c cs ih =>
    rw [pyReplace]
    have hnp : ¬(pat ≠ [] ∧ pat <+: (c :: cs)) := by
      rintro ⟨h1, h2⟩
      obtain ⟨t, ht⟩ := h2
      exact h ⟨[], t, by simp [ht]⟩
    rw [dif_neg hnp]
    have hni : ¬ pat <:+: cs := by
      intro hi
      obtain ⟨s1, t1, hst⟩ := hi
      exact h ⟨c :: s1, t1, by simp [hst]⟩
    simp [hne, ih hni]

/-- Counterexample to claim C8: `download_dir` builds the local
destination with `str.replace`, which substitutes every occurrence of
the source prefix, not only the leading one: for prefix `"data/"` and
object key `"data/data/f"` it yields `"outoutf"` instead of the
prefix substitution `"outdata/f"`. -/
theorem C8_counterexample :
    "data/".data <+: "data/data/f".data ∧
    download_dest "data/".data "out".data "data/data/f".data ≠
      specPrefixSubstitution "data/".data "out".data "data/data/f".data := by
  constructor
  · decide
  · simp [download_dest, pyReplace, specPrefixSubstitution]

/-- Claim C8 (amended): `upload_dir` constructs the destination key
by string-prefix substitution (`removeprefix` then concatenation);
`download_dir` substitutes every occurrence of the source prefix,
which coincides with string-prefix substitution exactly when the
prefix does not occur again in the remainder of the key. -/
theorem C8_amended :
    (∀ (from_dir to_dir_key loca_path : PyStr), from_dir <+: loca_path →
      upload_dest_key from_dir to_dir_key loca_path =
        specPrefixSubstitution from_dir to_dir_key loca_path) ∧
    (∀ (from_dir_key to_dir rest : PyStr), from_dir_key ≠ [] →
      ¬ from_dir_key <:+: rest →
      download_dest from_dir_key to_dir (from_dir_key ++ rest) =
        specPrefixSubstitution from_dir_key to_dir (from_dir_key ++ rest)) := by
  constructor
  · intro from_dir to_dir_key loca_path h
    simp only [upload_dest_key, pyRemovePfx, specPrefixSubstitution]
    rw [if_pos h]
  · intro from_dir_key to_dir rest hne hni
    simp only [download_dest, specPrefixSubstitution]
    rw [pyReplace]
    rw [dif_pos ⟨hne, List.prefix_append from_dir_key rest⟩]
    rw [List.drop_left, pyReplace_of_not_occ rest from_dir_key to_dir hne hni]

/-- Witness for the amended C8 at `"data/sub/f"`, where the prefix
`"data/"` occurs only at the start. -/
theorem C8_amended_witness :
    ("data/".data <+: "data/sub/f".data ∧
      upload_dest_key "data/".data "out/".data "data/sub/f".data =
        specPrefixSubstitution "data/".data "out/".data "data/sub/f".data) ∧
    ("data/".data ≠ ([] : PyStr) ∧ ¬ "data/".data <:+: "sub/f".data ∧
      download_dest "data/".data "out/".data ("data/".data ++ "sub/f".data) =
        specPrefixSubstitution "data/".data "out/".data ("data/".data ++ "sub/f".data)) :=
  ⟨⟨by decide, C8_amended.1 _ _ _ (by decide)⟩,
   ⟨by decide, by decide, C8_amended.2 _ _ _ (by decide) (by decide)⟩⟩


/-! ## Claim C1 — the quantile precondition guard -/

/-- Claim C1 (code bug): the quantile guard compares the string
`"quantile"` with `==` against the `statistics` LIST, which in Python
is always `False`; hence `get_statistics` never raises the documented
ValueError and issues exactly one network call for every argument
record — including the failing input of the claim
`statistics=["quantile"], q=None`, whose payload omits `q`. -/
theorem C1_quantile_guard_dead :
    (∀ (a : StatsArgs), (get_statistics a).networkCalls = 1 ∧
      (get_statistics a).result = Except.ok (req_params a)) ∧
    (get_statistics
        { experiment_id := "exp1", statistics := ["quantile"], channels := [] }).networkCalls
      = 1 ∧
    List.lookup "q"
        (req_params { experiment_id := "exp1", statistics := ["quantile"], channels := [] })
      = Option.none := by
  refine ⟨fun a => ?_, by decide, by decide⟩
  have hguard : pyEq (Val.vstr "quantile") (Val.vstrlist a.statistics) = false := by
    simp [pyEq]
  simp [get_statistics, hguard]


/-! ## Claim C9 — request payload construction (association-list dict model) -/

lemma lookup_cons_kv (k k2 : String) (v : Val) (l : List (String × Val)) :
    List.lookup k ((k2, v) :: l) = if k = k2 then Option.some v else List.lookup k l := by
  by_cases h : k = k2
  · subst h; simp [List.lookup]
  · have hb : (k == k2) = false := by simp [h]
    simp [List.lookup, hb, h]

lemma lookup_eq_none_of_not_mem_keys (k : String) (l : List (String × Val))
    (h : k ∉ l.map Prod.fst) : List.lookup k l = Option.none := by
  induction l with
  | nil => rfl
  | cons p rest ih =>
    simp only [List.map_cons, List.mem_cons, not_or] at h
    rw [show p = (p.1, p.2) from rfl, lookup_cons_kv, if_neg h.1]
    exact ih h.2

lemma lookup_append_kv (k : String) (d l : List (String × Val)) :
    List.lookup k (d ++ l) =
      match List.lookup k d with
      | Option.some v => Option.some v
      | Option.none => List.lookup k l := by
  induction d with
  | nil => rfl
  | cons p rest ih =>
    rw [List.cons_append, show p = (p.1, p.2) from rfl, lookup_cons_kv, lookup_cons_kv]
    by_cases h : k = p.1
    · simp [h]
    · simp [h, ih]


lemma lookup_map_set (d : List (String × Val)) (k : String) (v : Val)
    (h : d.any (fun p => p.1 == k) = true) :
    List.lookup k (d.map (fun p => if p.1 == k then (k, v) else p)) = Option.some v := by
  induction d with
  | nil => simp at h
  | cons p rest ih =>
    simp only [List.any_cons, Bool.or_eq_true] at h
    simp only [List.map_cons]
    by_cases hp : (p.1 == k) = true
    · rw [if_pos hp, lookup_cons_kv, if_pos rfl]
    · have hne : ¬ k = p.1 := by
        intro e
        exact hp (by simp [e])
      rw [if_neg hp, show p = (p.1, p.2) from rfl, lookup_cons_kv, if_neg hne]
      exact ih (h.resolve_left hp)

lemma lookup_map_set_ne (d : List (String × Val)) (k : String) (v : Val) (k' : String)
    (h : k' ≠ k) :
    List.lookup k' (d.map (fun p => if p.1 == k then (k, v) else p)) = List.lookup k' d := by
  induction d with
  | nil => rfl
  | cons p rest ih =>
    simp only [List.map_cons]
    by_cases hp : (p.1 == k) = true
    · have hpk : p.1 = k := by simpa using hp
      rw [if_pos hp, lookup_cons_kv, show p = (p.1, p.2) from rfl, lookup_cons_kv, hpk]
      rw [if_neg h, if_neg h]
      exact ih
    · rw [if_neg hp, show p = (p.1, p.2) from rfl, lookup_cons_kv, lookup_cons_kv]
      by_cases hk : k' = p.1
      · rw [if_pos hk, if_pos hk]
      · rw [if_neg hk, if_neg hk]
        exact ih

lemma lookup_setKey_self (d : List (String × Val)) (k : String) (v : Val) :
    List.lookup k (setKey d k v) = Option.some v := by
  unfold setKey
  by_cases h : d.any (fun p => p.1 == k) = true
  · rw [if_pos h]
    exact lookup_map_set d k v h
  · rw [if_neg h, lookup_append_kv]
    have hnk : k ∉ d.map Prod.fst := by
      intro hmem
      apply h
      obtain ⟨p, hp, hfst⟩ := List.mem_map.mp hmem
      exact List.any_eq_true.mpr ⟨p, hp, by simp [hfst]⟩
    rw [lookup_eq_none_of_not_mem_keys k d hnk]
    rw [lookup_cons_kv, if_pos rfl]

lemma lookup_setKey_ne (d : List (String × Val)) (k : String) (v : Val) (k' : String)
    (h : k' ≠ k) : List.lookup k' (setKey d k v) = List.lookup k' d := by
  unfold setKey
  by_cases ha : d.any (fun p => p.1 == k) = true
  · rw [if_pos ha]
    exact lookup_map_set_ne d k v k' h
  · rw [if_neg ha, lookup_append_kv]
    cases hl : List.lookup k' d with
    | some v' => rfl
    | none =>
      simp only []
      rw [lookup_cons_kv, if_neg h]
      rfl


lemma keys_setKey_of_any (d : List (String × Val)) (k : String) (v : Val)
    (h : d.any (fun p => p.1 == k) = true) :
    (setKey d k v).map Prod.fst = d.map Prod.fst := by
  unfold setKey
  rw [if_pos h]
  rw [List.map_map]
  apply List.map_congr_left
  intro p _
  by_cases hp : (p.1 == k) = true
  · have hpk : p.1 = k := by simpa using hp
    simp [hpk]
  · have hne : ¬ p.1 = k := by simpa using hp
    simp [hne]

lemma keys_setKey_of_not_any (d : List (String × Val)) (k : String) (v : Val)
    (h : ¬ d.any (fun p => p.1 == k) = true) :
    (setKey d k v).map Prod.fst = d.map Prod.fst ++ [k] := by
  unfold setKey
  rw [if_neg h]
  simp

lemma nodup_keys_setKey (d : List (String × Val)) (k : String) (v : Val)
    (h : (d.map Prod.fst).Nodup) : ((setKey d k v).map Prod.fst).Nodup := by
  by_cases ha : d.any (fun p => p.1 == k) = true
  · rw [keys_setKey_of_any d k v ha]
    exact h
  · rw [keys_setKey_of_not_any d k v ha]
    have hk : k ∉ d.map Prod.fst := by
      intro hmem
      apply ha
      obtain ⟨p, hp, hfst⟩ := List.mem_map.mp hmem
      exact List.any_eq_true.mpr ⟨p, hp, by simp [hfst]⟩
    simp [List.nodup_append, h, hk]

lemma nodup_keys_dictUpdate (d other : List (String × Val))
    (h : (d.map Prod.fst).Nodup) : ((dictUpdate d other).map Prod.fst).Nodup := by
  induction other generalizing d with
  | nil => exact h
  | cons p rest ih => exact ih _ (nodup_keys_setKey d p.1 p.2 h)

lemma lookup_dictUpdate_not_mem (d other : List (String × Val)) (k : String)
    (h : k ∉ other.map Prod.fst) :
    List.lookup k (dictUpdate d other) = List.lookup k d := by
  induction other generalizing d with
  | nil => rfl
  | cons p rest ih =>
    simp only [List.map_cons, List.mem_cons, not_or] at h
    rw [show dictUpdate d (p :: rest) = dictUpdate (setKey d p.1 p.2) rest from rfl]
    rw [ih _ h.2]
    exact lookup_setKey_ne d p.1 p.2 k h.1

lemma lookup_dictUpdate_mem (d other : List (String × Val)) (k : String) (v : Val)
    (hnd : (other.map Prod.fst).Nodup) (h : (k, v) ∈ other) :
    List.lookup k (dictUpdate d other) = Option.some v := by
  induction other generalizing d with
  | nil => simp at h
  | cons p rest ih =>
    simp only [List.map_cons, List.nodup_cons] at hnd
    rw [show dictUpdate d (p :: rest) = dictUpdate (setKey d p.1 p.2) rest from rfl]
    rcases List.mem_cons.mp h with heq | hmem
    · have hk : k ∉ rest.map Prod.fst := by
        rw [← heq] at hnd
        exact hnd.1
      rw [lookup_dictUpdate_not_mem _ _ _ hk, ← heq]
      exact lookup_setKey_self d k v
    · exact ih _ hnd.2 hmem


lemma val_isNone_false_iff (v : Val) : v.isNone = false ↔ v ≠ Val.none := by
  cases v <;> simp [Val.isNone]

lemma not_mem_keys_filter (l : List (String × Val)) (pred : String × Val → Bool)
    (k : String) (h : k ∉ l.map Prod.fst) : k ∉ (l.filter pred).map Prod.fst := by
  intro hmem
  obtain ⟨p, hp, hfst⟩ := List.mem_map.mp hmem
  exact h (List.mem_map.mpr ⟨p, List.mem_of_mem_filter hp, hfst⟩)

lemma lookup_filter_isNone (l : List (String × Val)) (k : String)
    (hnd : (l.map Prod.fst).Nodup) :
    List.lookup k (l.filter (fun p => !p.2.isNone)) =
      (List.lookup k l).bind
        (fun v => if v.isNone then Option.none else Option.some v) := by
  induction l with
  | nil => rfl
  | cons p rest ih =>
    simp only [List.map_cons, List.nodup_cons] at hnd
    rw [List.filter_cons]
    by_cases hk : k = p.1
    · have hlk : List.lookup k (p :: rest) = Option.some p.2 := by
        rw [show p = (p.1, p.2) from rfl, lookup_cons_kv, if_pos hk]
      rw [hlk]
      have hnotrest : k ∉ rest.map Prod.fst := hk ▸ hnd.1
      by_cases hv : p.2.isNone = true
      · have hpred : (!p.2.isNone) = false := by simp [hv]
        rw [hpred]
        simp only [Bool.false_eq_true, if_false]
        rw [lookup_eq_none_of_not_mem_keys k _
              (not_mem_keys_filter rest _ k hnotrest)]
        simp [hv]
      · have hpred : (!p.2.isNone) = true := by simp [hv]
        rw [hpred]
        simp only [if_true]
        rw [show p = (p.1, p.2) from rfl, lookup_cons_kv, if_pos hk]
        simp [hv]
    · have hlk : List.lookup k (p :: rest) = List.lookup k rest := by
        rw [show p = (p.1, p.2) from rfl, lookup_cons_kv, if_neg hk]
      rw [hlk]
      by_cases hv : (!p.2.isNone) = true
      · rw [hv]
        simp only [if_true]
        rw [show p = (p.1, p.2) from rfl, lookup_cons_kv, if_neg hk]
        exact ih hnd.2
      · have hpred : (!p.2.isNone) = false := by simpa using hv
        rw [hpred]
        simp only [Bool.false_eq_true, if_false]
        exact ih hnd.2


lemma computed_params_keys (a : StatsArgs) :
    (computed_params a).map Prod.fst =
      ["statistics", "q", "channels", "annotations", "compensationId", "fcsFileIds",
       "format", "layout", "percentOf", "populationIds"] := rfl

lemma computed_params_keys_nodup (a : StatsArgs) :
    ((computed_params a).map Prod.fst).Nodup := by
  rw [computed_params_keys]
  decide

/-- Claim C9: the outgoing payload contains exactly the entries whose
merged value is not `None`; caller-supplied `other_params` are merged
after all computed fields, so a caller value overrides the computed
one (and a caller `None` removes the field); keys not overridden keep
their computed value, filtered by non-`None`. -/
theorem C9_payload (a : StatsArgs) (hnd : (a.other_params.map Prod.fst).Nodup) :
    (∀ k v, List.lookup k (req_params a) = Option.some v → v ≠ Val.none) ∧
    (∀ k v, (k, v) ∈ a.other_params → v ≠ Val.none →
      List.lookup k (req_params a) = Option.some v) ∧
    (∀ k, (k, Val.none) ∈ a.other_params →
      List.lookup k (req_params a) = Option.none) ∧
    (∀ k, k ∉ a.other_params.map Prod.fst →
      List.lookup k (req_params a) =
        (List.lookup k (computed_params a)).bind
          (fun v => if v.isNone then Option.none else Option.some v)) := by
  have hmergednd : ((dictUpdate (computed_params a) a.other_params).map Prod.fst).Nodup :=
    nodup_keys_dictUpdate _ _ (computed_params_keys_nodup a)
  have hfilter := fun k => lookup_filter_isNone
    (dictUpdate (computed_params a) a.other_params) k hmergednd
  refine ⟨?_, ?_, ?_, ?_⟩
  · intro k v hv
    rw [req_params, hfilter k] at hv
    cases hl : List.lookup k (dictUpdate (computed_params a) a.other_params) with
    | none => rw [hl] at hv; simp at hv
    | some v' =>
      rw [hl] at hv
      by_cases hn : v'.isNone = true
      · simp [hn] at hv
      · simp [hn] at hv
        subst hv
        exact (val_isNone_false_iff v').mp (by simpa using hn)
  · intro k v hmem hvne
    rw [req_params, hfilter k, lookup_dictUpdate_mem _ _ _ _ hnd hmem]
    simp [(val_isNone_false_iff v).mpr hvne]
  · intro k hmem
    rw [req_params, hfilter k, lookup_dictUpdate_mem _ _ _ _ hnd hmem]
    simp [Val.isNone]
  · intro k hnotmem
    rw [req_params, hfilter k, lookup_dictUpdate_not_mem _ _ _ hnotmem]

/-- Arguments used to witness the payload-construction theorem. -/
def C9args : StatsArgs :=
  { experiment_id := "e"
    statistics := ["mean"]
    channels := ["c"]
    layout := Val.vstr "medium"
    other_params := [("ids", Val.vbool true), ("layout", Val.none)] }

/-- Witness for C9: with `other_params = [("ids", True), ("layout",
None)]` the payload carries the caller value for `ids` and drops `layout`
despite a computed value. -/
theorem C9_witness :
    ((C9args.other_params.map Prod.fst).Nodup ∧
      List.lookup "ids" (req_params C9args) = Option.some (Val.vbool true)) ∧
    List.lookup "layout" (req_params C9args) = Option.none :=
  ⟨⟨by decide,
    (C9_payload C9args (by decide)).2.1 "ids" (Val.vbool true) (by decide) (by decide)⟩,
   (C9_payload C9args (by decide)).2.2.1 "layout" (by decide)⟩


/-! ## Claims C2, C5, C6 — orchestrator skip behaviour and idempotence -/

lemma keyHasPfx_self (k : String) : keyHasPfx k k = true := by
  simp [keyHasPfx]

lemma subset_insertKey (l : List String) (k : String) : l ⊆ insertKey l k := by
  intro x hx
  unfold insertKey
  split
  · exact hx
  · exact List.mem_append_left _ hx

lemma mem_insertKey_self (l : List String) (k : String) : k ∈ insertKey l k := by
  unfold insertKey
  split
  · assumption
  · exact List.mem_append_right _ (List.mem_singleton.mpr rfl)

lemma check_mono {w w' : World} (p : String) (hs : w.s3 ⊆ w'.s3)
    (h : check_s3_exists w p = true) : check_s3_exists w' p = true := by
  simp only [check_s3_exists, List.any_eq_true] at h ⊢
  obtain ⟨k, hk, hpfx⟩ := h
  exact ⟨k, hs hk, hpfx⟩

lemma check_insert_self (w : World) (p : String) :
    check_s3_exists { w with s3 := insertKey w.s3 ("CellEngine/" ++ p) } p = true := by
  simp only [check_s3_exists, List.any_eq_true]
  exact ⟨"CellEngine/" ++ p, mem_insertKey_self _ _, keyHasPfx_self _⟩

lemma stepRaw_skip (exp : Experiment) (exp_root : String) (fcs : FcsFile) (w : World)
    (h : check_s3_exists w (rawPath exp_root fcs) = true) :
    stepRaw exp exp_root fcs w = (w, []) := by
  simp [stepRaw, download_file, upload_to_s3, h]

lemma stepGating_skip (exp : Experiment) (exp_root : String) (fcs : FcsFile) (w : World)
    (h : check_s3_exists w (gatingPath exp_root fcs) = true) :
    stepGating exp exp_root fcs w = (w, []) := by
  simp [stepGating, download_fcs_gating_ml, upload_to_s3, h]

lemma stepStats_skip (exp : Experiment) (exp_root : String) (fcs : FcsFile) (w : World)
    (h : check_s3_exists w (statsPath exp_root fcs) = true) :
    stepStats exp exp_root fcs w = (w, []) := by
  simp [stepStats, download_statistics, upload_to_s3, h]


lemma stepRaw_else (exp : Experiment) (exp_root : String) (fcs : FcsFile) (w : World)
    (h : check_s3_exists w (rawPath exp_root fcs) = false) :
    stepRaw exp exp_root fcs w =
      (⟨insertKey w.s3 ("CellEngine/" ++ rawPath exp_root fcs),
        (insertKey w.localFiles (rawPath exp_root fcs)).filter
          (fun q => q ≠ rawPath exp_root fcs)⟩,
       [Ev.fcsDownload exp.eid fcs.fid, Ev.localWrite (rawPath exp_root fcs),
        Ev.s3Upload ("CellEngine/" ++ rawPath exp_root fcs),
        Ev.localRemove (rawPath exp_root fcs)]) := by
  simp [stepRaw, download_file, upload_to_s3, h]

lemma stepGating_else (exp : Experiment) (exp_root : String) (fcs : FcsFile) (w : World)
    (h : check_s3_exists w (gatingPath exp_root fcs) = false) :
    stepGating exp exp_root fcs w =
      (⟨insertKey w.s3 ("CellEngine/" ++ gatingPath exp_root fcs),
        (insertKey w.localFiles (gatingPath exp_root fcs)).filter
          (fun q => q ≠ gatingPath exp_root fcs)⟩,
       [Ev.gatingMLGet exp.eid (Option.some fcs.fid),
        Ev.localWrite (gatingPath exp_root fcs),
        Ev.s3Upload ("CellEngine/" ++ gatingPath exp_root fcs),
        Ev.localRemove (gatingPath exp_root fcs)]) := by
  simp [stepGating, download_fcs_gating_ml, upload_to_s3, h]

lemma stepStats_else (exp : Experiment) (exp_root : String) (fcs : FcsFile) (w : World)
    (h : check_s3_exists w (statsPath exp_root fcs) = false) :
    stepStats exp exp_root fcs w =
      (⟨insertKey w.s3 ("CellEngine/" ++ statsPath exp_root fcs),
        (insertKey w.localFiles (statsPath exp_root fcs)).filter
          (fun q => q ≠ statsPath exp_root fcs)⟩,
       [Ev.statsRequest exp.eid fcs.fid, Ev.localWrite (statsPath exp_root fcs),
        Ev.s3Upload ("CellEngine/" ++ statsPath exp_root fcs),
        Ev.localRemove (statsPath exp_root fcs)]) := by
  simp [stepStats, download_statistics, upload_to_s3, h]

lemma stepGlobal_eq (exp : Experiment) (exp_root : String) (w : World) :
    stepGlobal exp exp_root w =
      (⟨insertKey w.s3 ("CellEngine/" ++ globalGatingPath exp_root exp),
        insertKey w.localFiles (globalGatingPath exp_root exp)⟩,
       [Ev.gatingMLGet exp.eid Option.none,
        Ev.localWrite (globalGatingPath exp_root exp),
        Ev.s3Upload ("CellEngine/" ++ globalGatingPath exp_root exp)]) := by
  simp [stepGlobal, download_global_gating_ml, upload_to_s3]


lemma stepRaw_s3_mono (exp : Experiment) (exp_root : String) (fcs : FcsFile) (w : World) :
    w.s3 ⊆ (stepRaw exp exp_root fcs w).1.s3 := by
  cases h : check_s3_exists w (rawPath exp_root fcs) with
  | true => rw [stepRaw_skip exp exp_root fcs w h]; exact fun x hx => hx
  | false => rw [stepRaw_else exp exp_root fcs w h]; exact subset_insertKey _ _

lemma stepGating_s3_mono (exp : Experiment) (exp_root : String) (fcs : FcsFile) (w : World) :
    w.s3 ⊆ (stepGating exp exp_root fcs w).1.s3 := by
  cases h : check_s3_exists w (gatingPath exp_root fcs) with
  | true => rw [stepGating_skip exp exp_root fcs w h]; exact fun x hx => hx
  | false => rw [stepGating_else exp exp_root fcs w h]; exact subset_insertKey _ _

lemma stepStats_s3_mono (exp : Experiment) (exp_root : String) (fcs : FcsFile) (w : World) :
    w.s3 ⊆ (stepStats exp exp_root fcs w).1.s3 := by
  cases h : check_s3_exists w (statsPath exp_root fcs) with
  | true => rw [stepStats_skip exp exp_root fcs w h]; exact fun x hx => hx
  | false => rw [stepStats_else exp exp_root fcs w h]; exact subset_insertKey _ _

lemma stepRaw_establishes (exp : Experiment) (exp_root : String) (fcs : FcsFile) (w : World) :
    check_s3_exists (stepRaw exp exp_root fcs w).1 (rawPath exp_root fcs) = true := by
  cases h : check_s3_exists w (rawPath exp_root fcs) with
  | true => rw [stepRaw_skip exp exp_root fcs w h]; exact h
  | false => rw [stepRaw_else exp exp_root fcs w h]; exact check_insert_self w _

lemma stepGating_establishes (exp : Experiment) (exp_root : String) (fcs : FcsFile)
    (w : World) :
    check_s3_exists (stepGating exp exp_root fcs w).1 (gatingPath exp_root fcs) = true := by
  cases h : check_s3_exists w (gatingPath exp_root fcs) with
  | true => rw [stepGating_skip exp exp_root fcs w h]; exact h
  | false => rw [stepGating_else exp exp_root fcs w h]; exact check_insert_self w _

lemma stepStats_establishes (exp : Experiment) (exp_root : String) (fcs : FcsFile)
    (w : World) :
    check_s3_exists (stepStats exp exp_root fcs w).1 (statsPath exp_root fcs) = true := by
  cases h : check_s3_exists w (statsPath exp_root fcs) with
  | true => rw [stepStats_skip exp exp_root fcs w h]; exact h
  | false => rw [stepStats_else exp exp_root fcs w h]; exact check_insert_self w _


lemma processFcs_s3_mono (exp : Experiment) (exp_root : String) (w : World) (fcs : FcsFile) :
    w.s3 ⊆ (processFcs exp exp_root w fcs).1.s3 := by
  simp only [processFcs]
  exact fun x hx =>
    stepStats_s3_mono exp exp_root fcs _
      (stepGating_s3_mono exp exp_root fcs _
        (stepRaw_s3_mono exp exp_root fcs w hx))

lemma processFcs_establishes (exp : Experiment) (exp_root : String) (w : World)
    (fcs : FcsFile) :
    check_s3_exists (processFcs exp exp_root w fcs).1 (rawPath exp_root fcs) = true ∧
    check_s3_exists (processFcs exp exp_root w fcs).1 (gatingPath exp_root fcs) = true ∧
    check_s3_exists (processFcs exp exp_root w fcs).1 (statsPath exp_root fcs) = true := by
  simp only [processFcs]
  refine ⟨?_, ?_, ?_⟩
  · exact check_mono _
      (fun x hx => stepStats_s3_mono exp exp_root fcs _ (stepGating_s3_mono exp exp_root fcs _ hx))
      (stepRaw_establishes exp exp_root fcs w)
  · exact check_mono _ (stepStats_s3_mono exp exp_root fcs _)
      (stepGating_establishes exp exp_root fcs _)
  · exact stepStats_establishes exp exp_root fcs _

lemma processFcs_skip (exp : Experiment) (exp_root : String) (w : World) (fcs : FcsFile)
    (h1 : check_s3_exists w (rawPath exp_root fcs) = true)
    (h2 : check_s3_exists w (gatingPath exp_root fcs) = true)
    (h3 : check_s3_exists w (statsPath exp_root fcs) = true) :
    processFcs exp exp_root w fcs = (w, []) := by
  simp only [processFcs, stepRaw_skip exp exp_root fcs w h1]
  simp only [stepGating_skip exp exp_root fcs w h2]
  simp only [stepStats_skip exp exp_root fcs w h3]
  rfl

lemma loopFcs_s3_mono (exp : Experiment) (exp_root : String) (w : World)
    (files : List FcsFile) : w.s3 ⊆ (loopFcs exp exp_root w files).1.s3 := by
  induction files generalizing w with
  | nil => exact fun x hx => hx
  | cons f rest ih =>
    simp only [loopFcs]
    exact fun x hx => ih _ (processFcs_s3_mono exp exp_root w f hx)

lemma loopFcs_establishes (exp : Experiment) (exp_root : String) (w : World)
    (files : List FcsFile) :
    ∀ fcs ∈ files,
      check_s3_exists (loopFcs exp exp_root w files).1 (rawPath exp_root fcs) = true ∧
      check_s3_exists (loopFcs exp exp_root w files).1 (gatingPath exp_root fcs) = true ∧
      check_s3_exists (loopFcs exp exp_root w files).1 (statsPath exp_root fcs) = true := by
  induction files generalizing w with
  | nil => intro fcs hmem; simp at hmem
  | cons f rest ih =>
    intro fcs hmem
    simp only [loopFcs]
    rcases List.mem_cons.mp hmem with heq | hmem2
    · subst heq
      obtain ⟨e1, e2, e3⟩ := processFcs_establishes exp exp_root w fcs
      exact ⟨check_mono _ (loopFcs_s3_mono exp exp_root _ rest) e1,
             check_mono _ (loopFcs_s3_mono exp exp_root _ rest) e2,
             check_mono _ (loopFcs_s3_mono exp exp_root _ rest) e3⟩
    · exact ih _ fcs hmem2

lemma loopFcs_skip (exp : Experiment) (exp_root : String) (w : World)
    (files : List FcsFile)
    (h : ∀ fcs ∈ files,
      check_s3_exists w (rawPath exp_root fcs) = true ∧
      check_s3_exists w (gatingPath exp_root fcs) = true ∧
      check_s3_exists w (statsPath exp_root fcs) = true) :
    loopFcs exp exp_root w files = (w, []) := by
  induction files with
  | nil => rfl
  | cons f rest ih =>
    obtain ⟨h1, h2, h3⟩ := h f (List.mem_cons_self f rest)
    simp only [loopFcs, processFcs_skip exp exp_root w f h1 h2 h3]
    simp only [ih (fun fcs hm => h fcs (List.mem_cons_of_mem f hm))]
    rfl


lemma download_experiment_files_establishes (exp : Experiment) (w : World) :
    ∀ fcs ∈ exp.fcs_files,
      check_s3_exists (download_experiment_files exp w).1
        (rawPath ("data/" ++ exp.name) fcs) = true ∧
      check_s3_exists (download_experiment_files exp w).1
        (gatingPath ("data/" ++ exp.name) fcs) = true ∧
      check_s3_exists (download_experiment_files exp w).1
        (statsPath ("data/" ++ exp.name) fcs) = true := by
  simp only [download_experiment_files]
  exact loopFcs_establishes exp _ _ exp.fcs_files

lemma stepGlobal_s3_mono (exp : Experiment) (exp_root : String) (w : World) :
    w.s3 ⊆ (stepGlobal exp exp_root w).1.s3 := by
  rw [stepGlobal_eq]
  exact subset_insertKey _ _

lemma second_run_trace (exp : Experiment) (w0 : World) :
    (download_experiment_files exp (download_experiment_files exp w0).1).2 =
      [Ev.gatingMLGet exp.eid Option.none,
       Ev.localWrite (globalGatingPath ("data/" ++ exp.name) exp),
       Ev.s3Upload ("CellEngine/" ++ globalGatingPath ("data/" ++ exp.name) exp)] := by
  have hest := download_experiment_files_establishes exp w0
  set w1 := (download_experiment_files exp w0).1 with hw1
  have hest2 : ∀ fcs ∈ exp.fcs_files,
      check_s3_exists (stepGlobal exp ("data/" ++ exp.name) w1).1
        (rawPath ("data/" ++ exp.name) fcs) = true ∧
      check_s3_exists (stepGlobal exp ("data/" ++ exp.name) w1).1
        (gatingPath ("data/" ++ exp.name) fcs) = true ∧
      check_s3_exists (stepGlobal exp ("data/" ++ exp.name) w1).1
        (statsPath ("data/" ++ exp.name) fcs) = true := by
    intro fcs hmem
    obtain ⟨e1, e2, e3⟩ := hest fcs hmem
    exact ⟨check_mono _ (stepGlobal_s3_mono exp _ w1) e1,
           check_mono _ (stepGlobal_s3_mono exp _ w1) e2,
           check_mono _ (stepGlobal_s3_mono exp _ w1) e3⟩
  conv_lhs => rw [download_experiment_files]
  rw [loopFcs_skip exp _ _ exp.fcs_files hest2]
  rw [stepGlobal_eq]
  simp


/-- Counterexample to claim C2: running `_download_experiment_files`
a second time over the store produced by the first run issues ZERO
bulk-statistics requests and re-uploads no statistics file — the
skip signal of the existence check IS honored (the first run did issue
the request), contrary to the claimed always-reissue behaviour. -/
theorem C2_counterexample :
    ((download_experiment_files ⟨"e1", "E1", [⟨"p1"⟩], [⟨"f1", "A.fcs"⟩]⟩
        (download_experiment_files ⟨"e1", "E1", [⟨"p1"⟩], [⟨"f1", "A.fcs"⟩]⟩
          ⟨[], []⟩).1).2.filter Ev.isStatsRequest) = [] ∧
    Ev.s3Upload "CellEngine/data/E1/A_statistics.tsv" ∉
      (download_experiment_files ⟨"e1", "E1", [⟨"p1"⟩], [⟨"f1", "A.fcs"⟩]⟩
        (download_experiment_files ⟨"e1", "E1", [⟨"p1"⟩], [⟨"f1", "A.fcs"⟩]⟩
          ⟨[], []⟩).1).2 ∧
    Ev.statsRequest "e1" "f1" ∈
      (download_experiment_files ⟨"e1", "E1", [⟨"p1"⟩], [⟨"f1", "A.fcs"⟩]⟩ ⟨[], []⟩).2 := by
  decide

/-- Claim C2 (amended): the per-file statistics step short-circuits
on its existence check exactly like the raw-file and gating steps:
`_download_statistics` returns before calling `get_statistics` when
the mirrored destination exists, and `_upload_to_s3` is a no-op on the
returned `None`; a second run over the same store issues zero
statistics requests. -/
theorem C2_statistics_skip_honored (exp : Experiment) (w0 : World) :
    ((download_experiment_files exp (download_experiment_files exp w0).1).2.filter
      Ev.isStatsRequest) = [] := by
  rw [second_run_trace]
  simp [Ev.isStatsRequest]

/-- Claim C5: a second run of the export orchestrator over the same
experiment with the object store retained performs zero redundant
raw-data-file and per-file gating-definition transfers: no raw-file
download, no per-file gating GET, and the only upload issued is the
(unconditionally re-mirrored) global gating definition. -/
theorem C5_second_run_idempotent (exp : Experiment) (w0 : World) :
    ((download_experiment_files exp (download_experiment_files exp w0).1).2.filter
      Ev.isFcsDownload) = [] ∧
    ((download_experiment_files exp (download_experiment_files exp w0).1).2.filter
      Ev.isFcsGatingGet) = [] ∧
    ((download_experiment_files exp (download_experiment_files exp w0).1).2.filter
      Ev.isUpload) =
      [Ev.s3Upload ("CellEngine/" ++ globalGatingPath ("data/" ++ exp.name) exp)] := by
  rw [second_run_trace]
  refine ⟨by simp [Ev.isFcsDownload], by simp [Ev.isFcsGatingGet], ?_⟩
  simp [Ev.isUpload, Ev.isFcsGatingGet]


/-- Counterexample to claim C6: the global gating definition is NOT
skipped when it already exists at the mirrored destination — it is
re-downloaded and re-uploaded — and its local copy is NOT removed
(uploaded with the default `remove_local=False`). -/
theorem C6_counterexample :
    check_s3_exists ⟨["CellEngine/data/E1/E1_global.gatingml"], []⟩
        (globalGatingPath "data/E1" ⟨"e1", "E1", [⟨"p1"⟩], [⟨"f1", "A.fcs"⟩]⟩) = true ∧
    Ev.gatingMLGet "e1" Option.none ∈
      (download_experiment_files ⟨"e1", "E1", [⟨"p1"⟩], [⟨"f1", "A.fcs"⟩]⟩
        ⟨["CellEngine/data/E1/E1_global.gatingml"], []⟩).2 ∧
    Ev.s3Upload "CellEngine/data/E1/E1_global.gatingml" ∈
      (download_experiment_files ⟨"e1", "E1", [⟨"p1"⟩], [⟨"f1", "A.fcs"⟩]⟩
        ⟨["CellEngine/data/E1/E1_global.gatingml"], []⟩).2 ∧
    Ev.localRemove "data/E1/E1_global.gatingml" ∉
      (download_experiment_files ⟨"e1", "E1", [⟨"p1"⟩], [⟨"f1", "A.fcs"⟩]⟩
        ⟨["CellEngine/data/E1/E1_global.gatingml"], []⟩).2 ∧
    "data/E1/E1_global.gatingml" ∈
      (download_experiment_files ⟨"e1", "E1", [⟨"p1"⟩], [⟨"f1", "A.fcs"⟩]⟩
        ⟨["CellEngine/data/E1/E1_global.gatingml"], []⟩).1.localFiles := by
  decide

/-- Claim C6 (amended): the per-file artifacts (raw file, gating
definition, statistics) are each skipped when their mirrored
destination exists and otherwise uploaded immediately after download
with the local copy removed; the GLOBAL gating definition is always
downloaded and uploaded, with no existence check and its local copy
retained. -/
theorem C6_amended (exp : Experiment) (exp_root : String) (fcs : FcsFile) (w : World) :
    (stepRaw exp exp_root fcs w =
      if check_s3_exists w (rawPath exp_root fcs) then (w, [])
      else
        (⟨insertKey w.s3 ("CellEngine/" ++ rawPath exp_root fcs),
          (insertKey w.localFiles (rawPath exp_root fcs)).filter
            (fun q => q ≠ rawPath exp_root fcs)⟩,
         [Ev.fcsDownload exp.eid fcs.fid, Ev.localWrite (rawPath exp_root fcs),
          Ev.s3Upload ("CellEngine/" ++ rawPath exp_root fcs),
          Ev.localRemove (rawPath exp_root fcs)])) ∧
    (stepGating exp exp_root fcs w =
      if check_s3_exists w (gatingPath exp_root fcs) then (w, [])
      else
        (⟨insertKey w.s3 ("CellEngine/" ++ gatingPath exp_root fcs),
          (insertKey w.localFiles (gatingPath exp_root fcs)).filter
            (fun q => q ≠ gatingPath exp_root fcs)⟩,
         [Ev.gatingMLGet exp.eid (Option.some fcs.fid),
          Ev.localWrite (gatingPath exp_root fcs),
          Ev.s3Upload ("CellEngine/" ++ gatingPath exp_root fcs),
          Ev.localRemove (gatingPath exp_root fcs)])) ∧
    (stepStats exp exp_root fcs w =
      if check_s3_exists w (statsPath exp_root fcs) then (w, [])
      else
        (⟨insertKey w.s3 ("CellEngine/" ++ statsPath exp_root fcs),
          (insertKey w.localFiles (statsPath exp_root fcs)).filter
            (fun q => q ≠ statsPath exp_root fcs)⟩,
         [Ev.statsRequest exp.eid fcs.fid, Ev.localWrite (statsPath exp_root fcs),
          Ev.s3Upload ("CellEngine/" ++ statsPath exp_root fcs),
          Ev.localRemove (statsPath exp_root fcs)])) ∧
    (stepGlobal exp exp_root w =
      (⟨insertKey w.s3 ("CellEngine/" ++ globalGatingPath exp_root exp),
        insertKey w.localFiles (globalGatingPath exp_root exp)⟩,
       [Ev.gatingMLGet exp.eid Option.none,
        Ev.localWrite (globalGatingPath exp_root exp),
        Ev.s3Upload ("CellEngine/" ++ globalGatingPath exp_root exp)])) := by
  refine ⟨?_, ?_, ?_, stepGlobal_eq exp exp_root w⟩
  · cases h : check_s3_exists w (rawPath exp_root fcs) with
    | true => rw [if_pos rfl]; exact stepRaw_skip exp exp_root fcs w h
    | false => rw [if_neg (by simp)]; exact stepRaw_else exp exp_root fcs w h
  · cases h : check_s3_exists w (gatingPath exp_root fcs) with
    | true => rw [if_pos rfl]; exact stepGating_skip exp exp_root fcs w h
    | false => rw [if_neg (by simp)]; exact stepGating_else exp exp_root fcs w h
  · cases h : check_s3_exists w (statsPath exp_root fcs) with
    | true => rw [if_pos rfl]; exact stepStats_skip exp exp_root fcs w h
    | false => rw [if_neg (by simp)]; exact stepStats_else exp exp_root fcs w h

end CellEngine
